/-
Verification development for the db-mcp-server repository.

The definitions below are a shallow embedding of the TypeScript sources:
  * `src/database.ts`       — `DbConfig`, `DbStats`, `PostgresClient` (pool map,
    per-fingerprint statistics, the `query` bookkeeping in its `finally` block);
  * `src/query-history.ts`  — `QueryHistoryEntry`, `MemoryQueryHistoryStore`,
    `getConnectionId`;
  * `src/session.ts`        — `MemorySessionStore`, `RedisSessionStore`;
  * `api/messages.ts`       — the message-routing handler.

Effects are made explicit: JavaScript `Map`s become association lists,
wall-clock reads (`Date.now()`, `new Date()`) and generated uuids become
parameters, the database driver and the Redis backend become oracle
parameters (`connectErr`, `outcome`, the `redis` association list).
JavaScript numbers used for the running average become exact rationals.
-/
import Mathlib

/-- Connection descriptor, from `DbConfigSchema` in `src/database.ts`
(`host`, `port`, `database`, `user`, `password`, optional `ssl`). -/
structure DbConfig where
  host : String
  port : Nat
  database : String
  user : String
  password : String
  ssl : Option Bool
deriving DecidableEq

/-- `getConnectionId` from `src/query-history.ts`:
the credential fingerprint is the string `user@host:port/database`. -/
def getConnectionId (config : DbConfig) : String :=
  config.user ++ "@" ++ config.host ++ ":" ++ toString config.port ++ "/" ++ config.database

/-- The `slowestQuery` component of `DbStats` in `src/database.ts`. -/
structure SlowestQuery where
  query : String
  executionTimeMs : Nat
deriving DecidableEq

/-- `DbStats` from `src/database.ts`: per-fingerprint statistics record.
Timestamps are milliseconds (`Date` values); the running average is exact. -/
structure DbStats where
  connectionId : String
  totalQueries : Nat
  avgExecutionTimeMs : Rat
  slowestQuery : Option SlowestQuery
  lastQueryTimestamp : Option Nat
deriving DecidableEq

/-- `QueryHistoryEntry` from `src/query-history.ts`. -/
structure QueryHistoryEntry where
  id : String
  dbConnectionId : String
  userId : Option String
  query : String
  params : List String
  rowCount : Option Int
  executionTimeMs : Nat
  timestamp : Nat
  error : Option String
deriving DecidableEq

/-- The argument of `recordQuery` (`Omit<QueryHistoryEntry, 'id' | 'timestamp'>`). -/
structure QueryHistoryInput where
  dbConnectionId : String
  userId : Option String
  query : String
  params : List String
  rowCount : Option Int
  executionTimeMs : Nat
  error : Option String
deriving DecidableEq

/-- Association-list model of a JavaScript `Map` lookup (`m.get(k)`). -/
def mapLookup {α : Type} (k : String) : List (String × α) → Option α
  | [] => none
  | (k', v) :: rest => if k' = k then some v else mapLookup k rest

/-- Association-list model of `m.set(k, v)`: replaces the entry in place
when the key is present (a JavaScript `Map` keeps the original insertion
position on overwrite), appends otherwise. -/
def mapSet {α : Type} (k : String) (v : α) : List (String × α) → List (String × α)
  | [] => [(k, v)]
  | (k', v') :: rest => if k' = k then (k, v) :: rest else (k', v') :: mapSet k v rest

namespace MemoryQueryHistoryStore

/-- `MemoryQueryHistoryStore.recordQuery` from `src/query-history.ts`:
builds the entry (the store assigns `id` and `timestamp`), pushes it, and
keeps only the last 1000 entries (`this.history.slice(-1000)`) when the
length exceeds 1000.  Returns the new history and the stored entry. -/
def recordQuery (hist : List QueryHistoryEntry) (inp : QueryHistoryInput)
    (uuid : String) (now : Nat) : List QueryHistoryEntry × QueryHistoryEntry :=
  let newEntry : QueryHistoryEntry :=
    { id := uuid
      dbConnectionId := inp.dbConnectionId
      userId := inp.userId
      query := inp.query
      params := inp.params
      rowCount := inp.rowCount
      executionTimeMs := inp.executionTimeMs
      timestamp := now
      error := inp.error }
  let h := hist ++ [newEntry]
  (if h.length > 1000 then h.drop (h.length - 1000) else h, newEntry)

/-- Stable insertion of an entry into a timestamp-descending list: the new
entry goes before the first element whose timestamp it reaches.  Together
with `sortByTimestampDesc` this models the (stable) JavaScript
`Array.prototype.sort` with comparator `b.timestamp - a.timestamp`. -/
def insertDesc (e : QueryHistoryEntry) : List QueryHistoryEntry → List QueryHistoryEntry
  | [] => [e]
  | x :: xs => if x.timestamp ≤ e.timestamp then e :: x :: xs else x :: insertDesc e xs

/-- Stable sort by timestamp descending (insertion sort). -/
def sortByTimestampDesc : List QueryHistoryEntry → List QueryHistoryEntry
  | [] => []
  | x :: xs => insertDesc x (sortByTimestampDesc xs)

/-- `MemoryQueryHistoryStore.getRecentQueries` from `src/query-history.ts`:
filter by connection id, sort by timestamp descending (stably), take the
first `limit` entries. -/
def getRecentQueries (hist : List QueryHistoryEntry) (dbConnectionId : String)
    (limit : Nat) : List QueryHistoryEntry :=
  (sortByTimestampDesc (hist.filter fun e => e.dbConnectionId == dbConnectionId)).take limit

/-- `getRecentQueries` with the declared default `limit: number = 50`. -/
def getRecentQueriesDefault (hist : List QueryHistoryEntry) (dbConnectionId : String) :
    List QueryHistoryEntry :=
  getRecentQueries hist dbConnectionId 50

/-- `MemoryQueryHistoryStore.getQueryById` from `src/query-history.ts`. -/
def getQueryById (hist : List QueryHistoryEntry) (id : String) : Option QueryHistoryEntry :=
  hist.find? fun e => e.id == id

/-- `MemoryQueryHistoryStore.clearHistory` from `src/query-history.ts`. -/
def clearHistory (hist : List QueryHistoryEntry) (dbConnectionId : String) :
    List QueryHistoryEntry :=
  hist.filter fun e => e.dbConnectionId != dbConnectionId

end MemoryQueryHistoryStore

/-- The driver's query result (`pg.QueryResult`), reduced to the field the
bookkeeping reads; `rowCount` may be `null` in the driver, hence optional. -/
structure QueryResult where
  rowCount : Option Int
deriving DecidableEq

/-- State of the `PostgresClient` singleton together with the in-memory
`queryHistoryStore` it records into: the pool map is reduced to the set of
fingerprints that hold a pool (`this.clients.has(key)` is all the code
reads), plus the per-fingerprint statistics map and the history list. -/
structure ServerState where
  clients : List String
  stats : List (String × DbStats)
  history : List QueryHistoryEntry
deriving DecidableEq

/-- The statistics record installed for a fresh fingerprint in
`getConnection` (`{connectionId: key, totalQueries: 0, avgExecutionTimeMs: 0}`). -/
def initStats (key : String) : DbStats :=
  { connectionId := key
    totalQueries := 0
    avgExecutionTimeMs := 0
    slowestQuery := none
    lastQueryTimestamp := none }

namespace PostgresClient

/-- `PostgresClient.getConnection` from `src/database.ts`.  When the
fingerprint has no pool yet it installs the zero statistics record and then
health-checks the new pool; `connectErr` is the driver oracle for that
round trip (`none` = `pool.connect()` succeeded).  On failure the pool map
is left unchanged and the wrapped error message is returned. -/
def getConnection (st : ServerState) (config : DbConfig) (connectErr : Option String) :
    ServerState × Option String :=
  let key := getConnectionId config
  if key ∈ st.clients then (st, none)
  else
    let st' := { st with stats := mapSet key (initStats key) st.stats }
    match connectErr with
    | none => ({ st' with clients := key :: st'.clients }, none)
    | some cause => (st', some ("Failed to connect to database: " ++ cause))

/-- `PostgresClient.query` from `src/database.ts`.  `connectErr` is the
health-check oracle for a fresh pool, `outcome` the driver's answer to the
statement (`Except.error` = rejected promise with the driver message),
`durationMs` the measured wall-clock duration, `now` the `new Date()`
value and `uuid` the id the history store generates.  The `finally` block
(statistics update and history recording) runs for success and driver
failure alike, but not when pool acquisition itself raised. -/
def query (st : ServerState) (config : DbConfig) (q : String) (params : List String)
    (connectErr : Option String) (outcome : Except String QueryResult)
    (durationMs : Nat) (now : Nat) (uuid : String) :
    ServerState × Except String QueryResult :=
  let key := getConnectionId config
  let acq := getConnection st config connectErr
  match acq.2 with
  | some m => (acq.1, Except.error m)
  | none =>
    let st1 := acq.1
    let stats := (mapLookup key st1.stats).getD (initStats key)
    let totalExecutionTime := stats.avgExecutionTimeMs * (stats.totalQueries : Rat)
    let newTotal := stats.totalQueries + 1
    let newAvg := (totalExecutionTime + (durationMs : Rat)) / ((stats.totalQueries : Rat) + 1)
    let newSlowest :=
      match stats.slowestQuery with
      | none => some { query := q, executionTimeMs := durationMs }
      | some s =>
          if durationMs > s.executionTimeMs then
            some { query := q, executionTimeMs := durationMs }
          else some s
    let stats' : DbStats :=
      { connectionId := stats.connectionId
        totalQueries := newTotal
        avgExecutionTimeMs := newAvg
        slowestQuery := newSlowest
        lastQueryTimestamp := some now }
    let st2 := { st1 with stats := mapSet key stats' st1.stats }
    let inp : QueryHistoryInput :=
      { dbConnectionId := key
        userId := none
        query := q
        params := params
        rowCount := match outcome with | .ok r => r.rowCount | .error _ => none
        executionTimeMs := durationMs
        error := match outcome with | .ok _ => none | .error m => some m }
    let st3 := { st2 with history := (MemoryQueryHistoryStore.recordQuery st2.history inp uuid now).1 }
    (st3, outcome)

/-- `PostgresClient.getStats` from `src/database.ts`
(`this.stats.get(key) || null`). -/
def getStats (st : ServerState) (config : DbConfig) : Option DbStats :=
  mapLookup (getConnectionId config) st.stats

end PostgresClient

/-- `SessionData` from `src/session.ts`; the live channel handle
(`SSEServerTransport`) is abstracted to an opaque numeric identifier,
timestamps are milliseconds. -/
structure SessionData where
  transport : Nat
  created : Nat
  lastAccessed : Nat
deriving DecidableEq

namespace MemorySessionStore

/-- `MemorySessionStore.saveSession` from `src/session.ts`:
`this.sessions.set(sessionId, {transport, created: new Date(), lastAccessed: new Date()})`. -/
def saveSession (sessions : List (String × SessionData)) (sessionId : String)
    (transport : Nat) (now : Nat) : List (String × SessionData) :=
  mapSet sessionId { transport := transport, created := now, lastAccessed := now } sessions

/-- `MemorySessionStore.getSession` from `src/session.ts`: refreshes
`lastAccessed` and returns the handle, or `none` when absent. -/
def getSession (sessions : List (String × SessionData)) (sessionId : String) (now : Nat) :
    List (String × SessionData) × Option Nat :=
  match mapLookup sessionId sessions with
  | none => (sessions, none)
  | some sd =>
      (mapSet sessionId { sd with lastAccessed := now } sessions, some sd.transport)

/-- `MemorySessionStore.deleteSession` from `src/session.ts`. -/
def deleteSession (sessions : List (String × SessionData)) (sessionId : String) :
    List (String × SessionData) :=
  sessions.filter fun p => p.1 != sessionId

/-- `MemorySessionStore.cleanupSessions` from `src/session.ts`: deletes
every session whose idle age `now - lastAccessed` strictly exceeds
`maxAgeMs` (ages are computed on JavaScript numbers, hence in `Int`). -/
def cleanupSessions (sessions : List (String × SessionData)) (now : Nat) (maxAgeMs : Nat) :
    List (String × SessionData) :=
  sessions.filter fun p => decide (¬((now : Int) - (p.2.lastAccessed : Int) > (maxAgeMs : Int)))

end MemorySessionStore

/-- The metadata JSON stored per session by `RedisSessionStore`
(`{id, created, lastAccessed}`). -/
structure RedisSessionData where
  id : String
  created : Nat
  lastAccessed : Nat
deriving DecidableEq

namespace RedisSessionStore

/-- `RedisSessionStore.getSession` from `src/session.ts`: reads the
metadata key from the shared store (`redis`), refreshes `lastAccessed`
when present, and returns `activeTransports[sessionId] || null` — the live
handle comes from the process-local transport table only. -/
def getSession (redis : List (String × RedisSessionData))
    (activeTransports : List (String × Nat)) (sessionId : String) (now : Nat) :
    List (String × RedisSessionData) × Option Nat :=
  match mapLookup sessionId redis with
  | none => (redis, none)
  | some sd =>
      (mapSet sessionId { sd with lastAccessed := now } redis,
       mapLookup sessionId activeTransports)

end RedisSessionStore

/-- Outcome of the `api/messages.ts` handler for a request bearing a
session id: either the message is handed to a live transport, or the
handler answers 404 (`No active session found with the provided sessionId`). -/
inductive MessageOutcome where
  | handled : Nat → MessageOutcome
  | notFoundResponse : MessageOutcome
deriving DecidableEq

/-- The session-lookup core of the `api/messages.ts` default handler
(its lines 38–52, shared-backend configuration): check the local
`activeTransports` table first, fall back to `sessionStore.getSession`,
and answer 404 when both come back empty. -/
def handleMessage (redis : List (String × RedisSessionData))
    (activeTransports : List (String × Nat)) (sessionId : String) (now : Nat) :
    MessageOutcome :=
  match mapLookup sessionId activeTransports with
  | some t => .handled t
  | none =>
      match (RedisSessionStore.getSession redis activeTransports sessionId now).2 with
      | some t => .handled t
      | none => .notFoundResponse

/-- The statistics record the `finally` block of `PostgresClient.query`
starts from: the record for the fingerprint after pool acquisition, or the
zero record when absent (`this.stats.get(key) || {...}`). -/
def statsAfterAcquire (st : ServerState) (config : DbConfig) (connectErr : Option String) :
    DbStats :=
  (mapLookup (getConnectionId config)
      (PostgresClient.getConnection st config connectErr).1.stats).getD
    (initStats (getConnectionId config))

/-- The statistics record produced by the `finally` block of
`PostgresClient.query` from the record `old` it starts from: count
incremented, running average recomputed, slowest query replaced only on a
strictly greater duration, last-query timestamp refreshed. -/
def updatedStats (old : DbStats) (q : String) (durationMs now : Nat) : DbStats :=
  { connectionId := old.connectionId
    totalQueries := old.totalQueries + 1
    avgExecutionTimeMs :=
      (old.avgExecutionTimeMs * (old.totalQueries : Rat) + (durationMs : Rat)) /
        ((old.totalQueries : Rat) + 1)
    slowestQuery :=
      match old.slowestQuery with
      | none => some { query := q, executionTimeMs := durationMs }
      | some s =>
          if durationMs > s.executionTimeMs then
            some { query := q, executionTimeMs := durationMs }
          else some s
    lastQueryTimestamp := some now }

/-- The history input the `finally` block of `PostgresClient.query` hands
to `recordQuery`: `rowCount` only on success, `error` only on failure. -/
def inputOf (key q : String) (params : List String) (outcome : Except String QueryResult)
    (durationMs : Nat) : QueryHistoryInput :=
  { dbConnectionId := key
    userId := none
    query := q
    params := params
    rowCount := match outcome with | .ok r => r.rowCount | .error _ => none
    executionTimeMs := durationMs
    error := match outcome with | .ok _ => none | .error m => some m }

/-- Sample descriptor used by concrete witnesses. -/
def cfgA : DbConfig :=
  { host := "h", port := 1, database := "d", user := "u", password := "a", ssl := none }

/-- Sample descriptor agreeing with `cfgA` on everything but the secret
and the TLS flag. -/
def cfgB : DbConfig :=
  { host := "h", port := 1, database := "d", user := "u", password := "b", ssl := some true }

/-- Sample history entry used by concrete witnesses. -/
def entA : QueryHistoryEntry :=
  { id := "a", dbConnectionId := "c", userId := none, query := "select 1", params := [],
    rowCount := some 1, executionTimeMs := 3, timestamp := 5, error := none }

/-- Sample history input used by concrete witnesses. -/
def inpA : QueryHistoryInput :=
  { dbConnectionId := "c", userId := none, query := "select 1", params := [],
    rowCount := some 1, executionTimeMs := 3, error := none }

/-- Sample session record used by concrete witnesses. -/
def sdA : SessionData := { transport := 1, created := 0, lastAccessed := 10 }

/-- Sample shared-backend session metadata used by concrete witnesses. -/
def metaA : RedisSessionData := { id := "s1", created := 0, lastAccessed := 0 }

/-- The empty server state used by concrete witnesses. -/
def emptyState : ServerState := { clients := [], stats := [], history := [] }

/-- A server state with a pooled connection and an existing statistics
record for `cfgA`, used by concrete witnesses. -/
def stA : ServerState :=
  { clients := [getConnectionId cfgA]
    stats :=
      [(getConnectionId cfgA,
        { connectionId := getConnectionId cfgA
          totalQueries := 2
          avgExecutionTimeMs := 5
          slowestQuery := some { query := "p", executionTimeMs := 3 }
          lastQueryTimestamp := some 1 })]
    history := [] }

theorem mapLookup_mapSet_self {α : Type} (k : String) (v : α) (m : List (String × α)) :
    mapLookup k (mapSet k v m) = some v := by
  induction m with
  | nil => simp [mapSet, mapLookup]
  | cons p rest ih =>
    obtain ⟨k', v'⟩ := p
    by_cases h : k' = k
    · simp [mapSet, h, mapLookup]
    · simp [mapSet, h, mapLookup, ih]

theorem mapLookup_mapSet_ne {α : Type} {k k' : String} (v : α) (m : List (String × α))
    (h : k' ≠ k) : mapLookup k' (mapSet k v m) = mapLookup k' m := by
  induction m with
  | nil => simp [mapSet, mapLookup, Ne.symm h]
  | cons p rest ih =>
    obtain ⟨a, b⟩ := p
    by_cases ha : a = k
    · subst ha
      simp [mapSet, mapLookup, Ne.symm h, ih]
    · simp only [mapSet, ha, if_false, mapLookup, ih]

namespace MemoryQueryHistoryStore

theorem mem_insertDesc {x e : QueryHistoryEntry} {l : List QueryHistoryEntry} :
    x ∈ insertDesc e l ↔ x = e ∨ x ∈ l := by
  induction l with
  | nil => simp [insertDesc]
  | cons y ys ih =>
    by_cases hc : y.timestamp ≤ e.timestamp
    · simp [insertDesc, hc]
    · simp [insertDesc, hc, ih]
      tauto

theorem mem_sortByTimestampDesc {x : QueryHistoryEntry} {l : List QueryHistoryEntry} :
    x ∈ sortByTimestampDesc l ↔ x ∈ l := by
  induction l with
  | nil => simp [sortByTimestampDesc]
  | cons y ys ih => simp [sortByTimestampDesc, mem_insertDesc, ih]

theorem pairwise_insertDesc (e : QueryHistoryEntry) {l : List QueryHistoryEntry}
    (h : l.Pairwise fun a b => b.timestamp ≤ a.timestamp) :
    (insertDesc e l).Pairwise fun a b => b.timestamp ≤ a.timestamp := by
  induction l with
  | nil => simp [insertDesc]
  | cons y ys ih =>
    cases h with
    | cons hy hys =>
      by_cases hc : y.timestamp ≤ e.timestamp
      · simp only [insertDesc, if_pos hc]
        refine List.Pairwise.cons ?_ (List.Pairwise.cons hy hys)
        intro b hb
        rcases List.mem_cons.mp hb with hb | hb
        · exact hb ▸ hc
        · exact le_trans (hy b hb) hc
      · simp only [insertDesc, if_neg hc]
        refine List.Pairwise.cons ?_ (ih hys)
        intro b hb
        rcases mem_insertDesc.mp hb with hb | hb
        · exact hb ▸ le_of_lt (lt_of_not_le hc)
        · exact hy b hb

theorem pairwise_sortByTimestampDesc (l : List QueryHistoryEntry) :
    (sortByTimestampDesc l).Pairwise fun a b => b.timestamp ≤ a.timestamp := by
  induction l with
  | nil => simp [sortByTimestampDesc]
  | cons y ys ih => exact pairwise_insertDesc y ih

theorem filter_timestamp_insertDesc (e : QueryHistoryEntry) (l : List QueryHistoryEntry)
    (t : Nat) :
    (insertDesc e l).filter (fun x => x.timestamp == t) =
      if e.timestamp = t then e :: l.filter (fun x => x.timestamp == t)
      else l.filter (fun x => x.timestamp == t) := by
  induction l with
  | nil =>
    by_cases he : e.timestamp = t
    · have hbe : (e.timestamp == t) = true := by simp [he]
      simp [insertDesc, List.filter_cons, hbe, he]
    · have hbe : (e.timestamp == t) = false := by simp [he]
      simp [insertDesc, List.filter_cons, hbe, he]
  | cons y ys ih =>
    by_cases hc : y.timestamp ≤ e.timestamp
    · simp only [insertDesc, if_pos hc]
      by_cases he : e.timestamp = t
      · have hbe : (e.timestamp == t) = true := by simp [he]
        simp [List.filter_cons, hbe, he]
      · have hbe : (e.timestamp == t) = false := by simp [he]
        simp [List.filter_cons, hbe, he]
    · have hy : e.timestamp < y.timestamp := lt_of_not_le hc
      simp only [insertDesc, if_neg hc, List.filter_cons]
      by_cases he : e.timestamp = t
      · have hyt : (y.timestamp == t) = false := by
          have : y.timestamp ≠ t := by
            intro hyt
            rw [he, hyt] at hy
            exact lt_irrefl t hy
          simp [this]
        simp [hyt, ih, he]
      · by_cases hyt : y.timestamp = t
        · have hbyt : (y.timestamp == t) = true := by simp [hyt]
          simp [hbyt, ih, he]
        · have hbyt : (y.timestamp == t) = false := by simp [hyt]
          simp [hbyt, ih, he]

theorem filter_timestamp_sortByTimestampDesc (l : List QueryHistoryEntry) (t : Nat) :
    (sortByTimestampDesc l).filter (fun x => x.timestamp == t) =
      l.filter (fun x => x.timestamp == t) := by
  induction l with
  | nil => simp [sortByTimestampDesc]
  | cons y ys ih =>
    by_cases hy : y.timestamp = t <;>
      simp [sortByTimestampDesc, filter_timestamp_insertDesc, hy, List.filter_cons, ih]

theorem length_insertDesc (e : QueryHistoryEntry) (l : List QueryHistoryEntry) :
    (insertDesc e l).length = l.length + 1 := by
  induction l with
  | nil => simp [insertDesc]
  | cons y ys ih =>
    by_cases hc : y.timestamp ≤ e.timestamp <;> simp [insertDesc, hc, ih]

end MemoryQueryHistoryStore

/-- A `take` commutes with `filter` up to a shorter `take`: the filtered
prefix is an initial segment of the filtered whole. -/
theorem filter_take_eq_take_filter {α : Type} (l : List α) (n : Nat) (p : α → Bool) :
    ∃ k, (l.take n).filter p = (l.filter p).take k := by
  induction l generalizing n with
  | nil => exact ⟨0, by simp⟩
  | cons x xs ih =>
    cases n with
    | zero => exact ⟨0, by simp⟩
    | succ m =>
      obtain ⟨k, hk⟩ := ih m
      by_cases hp : p x
      · exact ⟨k + 1, by simp [List.filter_cons, hp, hk]⟩
      · exact ⟨k, by simp [List.filter_cons, hp, hk]⟩

theorem getConnection_snd_eq_none (st : ServerState) (config : DbConfig)
    (connectErr : Option String)
    (hacq : getConnectionId config ∈ st.clients ∨ connectErr = none) :
    (PostgresClient.getConnection st config connectErr).2 = none := by
  unfold PostgresClient.getConnection
  by_cases h : getConnectionId config ∈ st.clients
  · simp [h]
  · rcases hacq with hc | hc
    · exact absurd hc h
    · simp [h, hc]

theorem getConnection_history (st : ServerState) (config : DbConfig)
    (connectErr : Option String) :
    (PostgresClient.getConnection st config connectErr).1.history = st.history := by
  unfold PostgresClient.getConnection
  by_cases h : getConnectionId config ∈ st.clients
  · simp [h]
  · cases connectErr <;> simp [h]

/-- C3: for every pair of credential descriptors that agree on host, port,
database and user but differ in password and/or the optional TLS flag, the
fingerprint function returns the same string — the fingerprint does not
depend on the password or TLS inputs. -/
theorem fingerprint_ignores_secret (d1 d2 : DbConfig)
    (hh : d1.host = d2.host) (hp : d1.port = d2.port)
    (hd : d1.database = d2.database) (hu : d1.user = d2.user)
    (_hdiff : d1.password ≠ d2.password ∨ d1.ssl ≠ d2.ssl) :
    getConnectionId d1 = getConnectionId d2 := by
  simp [getConnectionId, hh, hp, hd, hu]

theorem fingerprint_ignores_secret_witness :
    (cfgA.host = cfgB.host ∧ cfgA.port = cfgB.port ∧ cfgA.database = cfgB.database ∧
      cfgA.user = cfgB.user ∧ (cfgA.password ≠ cfgB.password ∨ cfgA.ssl ≠ cfgB.ssl)) ∧
    getConnectionId cfgA = getConnectionId cfgB :=
  ⟨⟨rfl, rfl, rfl, rfl, Or.inl (by decide)⟩,
   fingerprint_ignores_secret cfgA cfgB rfl rfl rfl rfl (Or.inl (by decide))⟩

/-- C4 counterexample: saving a session under an id that is already
present does not fail — `MemorySessionStore.saveSession` overwrites the
stored session, so the existing session's handle and timestamps change. -/
theorem saveSession_duplicate_counterexample :
    MemorySessionStore.saveSession [("s1", { transport := 7, created := 10, lastAccessed := 10 })]
        "s1" 8 20 =
      [("s1", { transport := 8, created := 20, lastAccessed := 20 })] ∧
    mapLookup "s1"
        (MemorySessionStore.saveSession
          [("s1", { transport := 7, created := 10, lastAccessed := 10 })] "s1" 8 20) ≠
      some { transport := 7, created := 10, lastAccessed := 10 } := by
  decide

/-- C4 amended: calling `saveSession` with an id already present in the
store does not fail; it overwrites that id's session with the new handle
and fresh creation/last-access timestamps, leaving every other id's
session unchanged. -/
theorem saveSession_overwrites (sessions : List (String × SessionData)) (sid : String)
    (transport : Nat) (now : Nat) :
    mapLookup sid (MemorySessionStore.saveSession sessions sid transport now) =
      some { transport := transport, created := now, lastAccessed := now } ∧
    ∀ k, k ≠ sid →
      mapLookup k (MemorySessionStore.saveSession sessions sid transport now) =
        mapLookup k sessions := by
  refine ⟨mapLookup_mapSet_self _ _ _, fun k hk => mapLookup_mapSet_ne _ _ hk⟩

theorem saveSession_overwrites_witness :
    ("x" : String) ≠ "s1" ∧
    mapLookup "s1" (MemorySessionStore.saveSession [] "s1" 8 20) =
      some { transport := 8, created := 20, lastAccessed := 20 } ∧
    mapLookup "x" (MemorySessionStore.saveSession [] "s1" 8 20) =
      mapLookup "x" ([] : List (String × SessionData)) :=
  ⟨by decide, (saveSession_overwrites [] "s1" 8 20).1,
   (saveSession_overwrites [] "s1" 8 20).2 "x" (by decide)⟩

/-- C5 counterexample: when the shared backend holds metadata for an id
but the local transport table has no handle, `RedisSessionStore.getSession`
returns the very same `none` outcome as when no metadata exists at all,
and the message handler answers the same 404 in both cases — there is no
distinct `SessionNotLocal` signal. -/
theorem redis_getSession_not_local_counterexample :
    (RedisSessionStore.getSession [("s1", metaA)] [] "s1" 5).2 = none ∧
    (RedisSessionStore.getSession [] [] "s1" 5).2 = none ∧
    (RedisSessionStore.getSession [("s1", metaA)] [] "s1" 5).2 =
      (RedisSessionStore.getSession [] [] "s1" 5).2 ∧
    handleMessage [("s1", metaA)] [] "s1" 5 = MessageOutcome.notFoundResponse ∧
    handleMessage [] [] "s1" 5 = MessageOutcome.notFoundResponse := by
  decide

/-- C5 amended: whenever the local transport table holds no handle for an
id, `RedisSessionStore.getSession` returns `none` — whether or not the
shared backend holds metadata for the id — and the message handler
surfaces both situations as the same 404 NotFound response; no distinct
`SessionNotLocal` outcome exists. -/
theorem redis_getSession_requires_local_transport
    (redis : List (String × RedisSessionData)) (active : List (String × Nat))
    (sid : String) (now : Nat) (h : mapLookup sid active = none) :
    (RedisSessionStore.getSession redis active sid now).2 = none ∧
    handleMessage redis active sid now = MessageOutcome.notFoundResponse := by
  unfold handleMessage RedisSessionStore.getSession
  cases hm : mapLookup sid redis <;> simp [hm, h]

theorem redis_getSession_requires_local_transport_witness :
    mapLookup "s1" ([] : List (String × Nat)) = none ∧
    (RedisSessionStore.getSession [("s1", metaA)] [] "s1" 5).2 = none ∧
    handleMessage [("s1", metaA)] [] "s1" 5 = MessageOutcome.notFoundResponse :=
  ⟨by decide,
   (redis_getSession_requires_local_transport [("s1", metaA)] [] "s1" 5 (by decide)).1,
   (redis_getSession_requires_local_transport [("s1", metaA)] [] "s1" 5 (by decide)).2⟩

/-- C8: `cleanupSessions(maxAgeMs)` invoked at time `now` deletes a stored
session exactly when `now - lastAccessed` strictly exceeds `maxAgeMs`;
sessions whose idle age is at most `maxAgeMs` survive with all fields
unchanged. -/
theorem cleanupSessions_removes_iff (sessions : List (String × SessionData))
    (now maxAgeMs : Nat) (sid : String) (sd : SessionData)
    (h : (sid, sd) ∈ sessions) :
    ((sid, sd) ∈ MemorySessionStore.cleanupSessions sessions now maxAgeMs ↔
      (now : Int) - (sd.lastAccessed : Int) ≤ (maxAgeMs : Int)) := by
  simp [MemorySessionStore.cleanupSessions, List.mem_filter, h, not_lt]

theorem cleanupSessions_removes_iff_witness :
    ("a", sdA) ∈ [("a", sdA)] ∧
    (("a", sdA) ∈ MemorySessionStore.cleanupSessions [("a", sdA)] 15 3 ↔
      ((15 : Nat) : Int) - (sdA.lastAccessed : Int) ≤ ((3 : Nat) : Int)) :=
  ⟨by decide, cleanupSessions_removes_iff [("a", sdA)] 15 3 "a" sdA (by decide)⟩

theorem capAtFull (st : List QueryHistoryEntry) (e : QueryHistoryEntry)
    (h1000 : st.length = 1000) :
    (if (st ++ [e]).length > 1000 then (st ++ [e]).drop ((st ++ [e]).length - 1000)
     else st ++ [e]) = st.drop 1 ++ [e] := by
  have hlen : (st ++ [e]).length = 1001 := by simp [h1000]
  rw [if_pos (by omega), hlen]
  norm_num
  cases st with
  | nil => simp at h1000
  | cons a as => simp

/-- C6: the in-memory history backend never retains more than 1000
entries: `recordQuery` stays within the bound, `clearHistory` only
shrinks, and recording into a full (1000-entry) history evicts exactly the
globally oldest entry — the new history is the old one minus its head plus
the new entry at the end, so exactly 1000 remain. -/
theorem history_bounded (st : List QueryHistoryEntry) (inp : QueryHistoryInput)
    (uuid : String) (now : Nat) (fp : String) (h : st.length ≤ 1000) :
    ((MemoryQueryHistoryStore.recordQuery st inp uuid now).1).length ≤ 1000 ∧
    (MemoryQueryHistoryStore.clearHistory st fp).length ≤ 1000 ∧
    (st.length = 1000 →
      (MemoryQueryHistoryStore.recordQuery st inp uuid now).1 =
        st.drop 1 ++ [(MemoryQueryHistoryStore.recordQuery st inp uuid now).2]) := by
  refine ⟨?_, ?_, ?_⟩
  · simp only [MemoryQueryHistoryStore.recordQuery]
    split
    next hgt => simp only [List.length_drop]; omega
    next hle => omega
  · exact le_trans (List.length_filter_le _ _) h
  · intro h1000
    simp only [MemoryQueryHistoryStore.recordQuery]
    exact capAtFull st _ h1000

theorem history_bounded_witness :
    (List.replicate 1000 entA).length ≤ 1000 ∧
    ((MemoryQueryHistoryStore.recordQuery (List.replicate 1000 entA) inpA "u" 7).1).length ≤ 1000 :=
  ⟨by rw [List.length_replicate],
   (history_bounded (List.replicate 1000 entA) inpA "u" 7 "c" (by rw [List.length_replicate])).1⟩

/-- C7: `getRecentQueries` with the default limit returns at most 50
entries; for every limit the returned list contains only entries of the
requested fingerprint, is ordered by timestamp descending, and entries of
equal timestamp appear in their insertion order (the result's entries of
any fixed timestamp form an initial segment of that timestamp's entries of
the filtered history, in history order). -/
theorem getRecentQueries_spec (st : List QueryHistoryEntry) (fp : String) (limit t : Nat) :
    (MemoryQueryHistoryStore.getRecentQueriesDefault st fp).length ≤ 50 ∧
    (∀ e ∈ MemoryQueryHistoryStore.getRecentQueries st fp limit, e.dbConnectionId = fp) ∧
    ((MemoryQueryHistoryStore.getRecentQueries st fp limit).Pairwise
      fun a b => b.timestamp ≤ a.timestamp) ∧
    ∃ k, (MemoryQueryHistoryStore.getRecentQueries st fp limit).filter
        (fun e => e.timestamp == t) =
      ((st.filter fun e => e.dbConnectionId == fp).filter fun e => e.timestamp == t).take k := by
  refine ⟨?_, ?_, ?_, ?_⟩
  · simp only [MemoryQueryHistoryStore.getRecentQueriesDefault,
      MemoryQueryHistoryStore.getRecentQueries]
    exact List.length_take_le _ _
  · intro e he
    have h1 := List.mem_of_mem_take he
    have h2 := MemoryQueryHistoryStore.mem_sortByTimestampDesc.mp h1
    have h3 := (List.mem_filter.mp h2).2
    simpa using h3
  · exact List.Pairwise.sublist (List.take_sublist _ _)
      (MemoryQueryHistoryStore.pairwise_sortByTimestampDesc _)
  · obtain ⟨k, hk⟩ := filter_take_eq_take_filter
      (MemoryQueryHistoryStore.sortByTimestampDesc (st.filter fun e => e.dbConnectionId == fp))
      limit (fun e => e.timestamp == t)
    refine ⟨k, ?_⟩
    simp only [MemoryQueryHistoryStore.getRecentQueries]
    rw [hk, MemoryQueryHistoryStore.filter_timestamp_sortByTimestampDesc]

theorem getRecentQueries_spec_witness :
    entA ∈ MemoryQueryHistoryStore.getRecentQueries [entA] "c" 1 ∧ entA.dbConnectionId = "c" :=
  ⟨by decide, (getRecentQueries_spec [entA] "c" 1 0).2.1 entA (by decide)⟩

theorem query_acquired_eq (st : ServerState) (config : DbConfig) (q : String)
    (params : List String) (connectErr : Option String) (outcome : Except String QueryResult)
    (durationMs now : Nat) (uuid : String)
    (hacq : getConnectionId config ∈ st.clients ∨ connectErr = none) :
    PostgresClient.query st config q params connectErr outcome durationMs now uuid =
      ({ clients := (PostgresClient.getConnection st config connectErr).1.clients
         stats :=
           mapSet (getConnectionId config)
             (updatedStats (statsAfterAcquire st config connectErr) q durationMs now)
             (PostgresClient.getConnection st config connectErr).1.stats
         history :=
           (MemoryQueryHistoryStore.recordQuery st.history
             (inputOf (getConnectionId config) q params outcome durationMs) uuid now).1 },
       outcome) := by
  by_cases h : getConnectionId config ∈ st.clients
  · simp [PostgresClient.query, PostgresClient.getConnection, h, updatedStats, inputOf,
      statsAfterAcquire]
  · rcases hacq with hc | hc
    · exact absurd hc h
    · subst hc
      simp [PostgresClient.query, PostgresClient.getConnection, h, updatedStats, inputOf,
        statsAfterAcquire]

theorem query_connect_fail_eq (st : ServerState) (config : DbConfig) (q : String)
    (params : List String) (cause : String) (outcome : Except String QueryResult)
    (durationMs now : Nat) (uuid : String)
    (hnp : getConnectionId config ∉ st.clients) :
    PostgresClient.query st config q params (some cause) outcome durationMs now uuid =
      ({ st with
          stats := mapSet (getConnectionId config) (initStats (getConnectionId config)) st.stats },
       Except.error ("Failed to connect to database: " ++ cause)) := by
  simp [PostgresClient.query, PostgresClient.getConnection, hnp]

/-- C1: when the pool was acquired and the statement itself raised a
driver error, `PostgresClient.query` propagates exactly that error and,
before propagating, records exactly one new history entry — for the
descriptor's fingerprint, with `error` set to the driver message and
`rowCount` absent — and increments that fingerprint's `totalQueries`
statistic by exactly one. -/
theorem query_driver_error_bookkeeping (st : ServerState) (config : DbConfig) (q : String)
    (params : List String) (connectErr : Option String) (msg : String)
    (durationMs now : Nat) (uuid : String)
    (hacq : getConnectionId config ∈ st.clients ∨ connectErr = none) :
    (PostgresClient.query st config q params connectErr (Except.error msg)
        durationMs now uuid).2 = Except.error msg ∧
    (∃ inp : QueryHistoryInput,
      inp.dbConnectionId = getConnectionId config ∧ inp.error = some msg ∧
      inp.rowCount = none ∧
      (PostgresClient.query st config q params connectErr (Except.error msg)
          durationMs now uuid).1.history =
        (MemoryQueryHistoryStore.recordQuery st.history inp uuid now).1) ∧
    (mapLookup (getConnectionId config)
        (PostgresClient.query st config q params connectErr (Except.error msg)
          durationMs now uuid).1.stats).map DbStats.totalQueries =
      some ((statsAfterAcquire st config connectErr).totalQueries + 1) := by
  rw [query_acquired_eq st config q params connectErr (Except.error msg) durationMs now uuid hacq]
  refine ⟨rfl,
    ⟨inputOf (getConnectionId config) q params (Except.error msg) durationMs,
      rfl, rfl, rfl, rfl⟩, ?_⟩
  rw [mapLookup_mapSet_self]
  rfl

theorem query_driver_error_bookkeeping_witness :
    (getConnectionId cfgA ∈ emptyState.clients ∨ (none : Option String) = none) ∧
    (PostgresClient.query emptyState cfgA "q" [] none (Except.error "boom") 3 7 "u").2 =
      Except.error "boom" :=
  ⟨Or.inr rfl,
   (query_driver_error_bookkeeping emptyState cfgA "q" [] none "boom" 3 7 "u" (Or.inr rfl)).1⟩

/-- C2: after any executed query (success or driver failure) the
fingerprint's statistics record holds count `oldCount + 1`, running
average `(oldAvg * oldCount + newDuration) / (oldCount + 1)`, a refreshed
last-query timestamp, and a slowest-query record replaced by this query
exactly when none existed or the new duration is strictly greater; in
particular a tie leaves the old slowest record in place. -/
theorem query_updates_stats (st : ServerState) (config : DbConfig) (q : String)
    (params : List String) (connectErr : Option String) (outcome : Except String QueryResult)
    (durationMs now : Nat) (uuid : String)
    (hacq : getConnectionId config ∈ st.clients ∨ connectErr = none) :
    (mapLookup (getConnectionId config)
        (PostgresClient.query st config q params connectErr outcome durationMs now uuid).1.stats =
      some
        { connectionId := (statsAfterAcquire st config connectErr).connectionId
          totalQueries := (statsAfterAcquire st config connectErr).totalQueries + 1
          avgExecutionTimeMs :=
            ((statsAfterAcquire st config connectErr).avgExecutionTimeMs *
                ((statsAfterAcquire st config connectErr).totalQueries : Rat) +
              (durationMs : Rat)) /
              (((statsAfterAcquire st config connectErr).totalQueries : Rat) + 1)
          slowestQuery :=
            match (statsAfterAcquire st config connectErr).slowestQuery with
            | none => some { query := q, executionTimeMs := durationMs }
            | some s =>
                if durationMs > s.executionTimeMs then
                  some { query := q, executionTimeMs := durationMs }
                else some s
          lastQueryTimestamp := some now }) ∧
    ∀ s, (statsAfterAcquire st config connectErr).slowestQuery = some s →
      durationMs = s.executionTimeMs →
      (mapLookup (getConnectionId config)
          (PostgresClient.query st config q params connectErr outcome
            durationMs now uuid).1.stats).map DbStats.slowestQuery = some (some s) := by
  rw [query_acquired_eq st config q params connectErr outcome durationMs now uuid hacq]
  constructor
  · rw [mapLookup_mapSet_self]
    rfl
  · intro s hs hd
    rw [mapLookup_mapSet_self]
    simp [updatedStats, hs, hd]

theorem query_updates_stats_witness :
    (getConnectionId cfgA ∈ stA.clients ∨ (none : Option String) = none) ∧
    (mapLookup (getConnectionId cfgA)
        (PostgresClient.query stA cfgA "q" [] none (Except.ok { rowCount := some 1 })
          3 7 "u").1.stats).map DbStats.slowestQuery =
      some (some { query := "p", executionTimeMs := 3 }) :=
  ⟨Or.inl (by decide),
   (query_updates_stats stA cfgA "q" [] none (Except.ok { rowCount := some 1 }) 3 7 "u"
      (Or.inl (by decide))).2 { query := "p", executionTimeMs := 3 } (by decide) (by decide)⟩

/-- C9: when pool acquisition itself fails (the health-check connect
raises), `PostgresClient.query` propagates the wrapped connection error
without recording any history entry, without touching the pool map, and
without changing any existing statistics record (on the reachable states,
where a pool-less fingerprint's record can only be the zero record). -/
theorem query_connect_error_no_bookkeeping (st : ServerState) (config : DbConfig) (q : String)
    (params : List String) (cause : String) (outcome : Except String QueryResult)
    (durationMs now : Nat) (uuid : String)
    (hnp : getConnectionId config ∉ st.clients)
    (hst : mapLookup (getConnectionId config) st.stats = none ∨
      mapLookup (getConnectionId config) st.stats = some (initStats (getConnectionId config))) :
    (PostgresClient.query st config q params (some cause) outcome durationMs now uuid).2 =
      Except.error ("Failed to connect to database: " ++ cause) ∧
    (PostgresClient.query st config q params (some cause) outcome
        durationMs now uuid).1.history = st.history ∧
    (PostgresClient.query st config q params (some cause) outcome
        durationMs now uuid).1.clients = st.clients ∧
    ∀ k old, mapLookup k st.stats = some old →
      mapLookup k (PostgresClient.query st config q params (some cause) outcome
          durationMs now uuid).1.stats = some old := by
  rw [query_connect_fail_eq st config q params cause outcome durationMs now uuid hnp]
  refine ⟨rfl, rfl, rfl, ?_⟩
  intro k old hk
  by_cases hkk : k = getConnectionId config
  · subst hkk
    rw [mapLookup_mapSet_self]
    rcases hst with hs | hs
    · rw [hk] at hs
      exact absurd hs (by simp)
    · rw [hk] at hs
      exact hs.symm
  · rw [mapLookup_mapSet_ne _ _ hkk]
    exact hk

theorem query_connect_error_no_bookkeeping_witness :
    (getConnectionId cfgA ∉ emptyState.clients ∧
      mapLookup (getConnectionId cfgA) emptyState.stats = none) ∧
    (PostgresClient.query emptyState cfgA "q" [] (some "boom")
        (Except.ok { rowCount := none }) 3 7 "u").2 =
      Except.error ("Failed to connect to database: " ++ "boom") :=
  ⟨⟨by decide, rfl⟩,
   (query_connect_error_no_bookkeeping emptyState cfgA "q" [] "boom"
      (Except.ok { rowCount := none }) 3 7 "u" (by decide) (Or.inl rfl)).1⟩

/-- C10: a `getConnection` call for a fingerprint with no pooled
connection whose health check fails still creates the zero statistics
record for the fingerprint while leaving the pool map unchanged, so a
subsequent `getStats` on the same descriptor returns a record with
`totalQueries = 0` and `avgExecutionTimeMs = 0` rather than absent. -/
theorem getConnection_failure_creates_stats (st : ServerState) (config : DbConfig)
    (cause : String) (h : getConnectionId config ∉ st.clients) :
    (PostgresClient.getConnection st config (some cause)).2 =
      some ("Failed to connect to database: " ++ cause) ∧
    (PostgresClient.getConnection st config (some cause)).1.clients = st.clients ∧
    PostgresClient.getStats (PostgresClient.getConnection st config (some cause)).1 config =
      some (initStats (getConnectionId config)) ∧
    (initStats (getConnectionId config)).totalQueries = 0 ∧
    (initStats (getConnectionId config)).avgExecutionTimeMs = 0 := by
  simp only [PostgresClient.getConnection, PostgresClient.getStats, if_neg h]
  exact ⟨trivial, trivial, mapLookup_mapSet_self _ _ _, rfl, rfl⟩

theorem getConnection_failure_creates_stats_witness :
    getConnectionId cfgA ∉ emptyState.clients ∧
    PostgresClient.getStats (PostgresClient.getConnection emptyState cfgA (some "boom")).1 cfgA =
      some (initStats (getConnectionId cfgA)) :=
  ⟨by decide,
   (getConnection_failure_creates_stats emptyState cfgA "boom" (by decide)).2.2.1⟩
